import Mathlib

/-!
Verification of the concurrent multi-source extraction pipeline
(`src/database`, `src/extract`) against its natural-language specification.

The Python sources are shallowly embedded: pure functions become Lean
functions, the stateful polling loops become explicit state passing with a
fuel parameter, remote services become oracle functions passed in, and code
that may raise becomes `Option`/`Except`-valued.  Machine-level 64-bit
arithmetic (inside the SHAKE-128 hash used by `User.hash_id` and
`LogGroup.hash_name`) is modelled on `Nat` with explicit `% 2^64` masking.
-/

namespace Pipeline

/-! ## SHAKE-128 (hashlib.shake_128)

`src/database/models.py` masks identities with
`shake_128(x.encode("UTF-8")).hexdigest(n)` for `n = 4` (`User.hash_id`) and
`n = 8` (`LogGroup.hash_name`).  This is a faithful executable model of
SHAKE-128: Keccak-f[1600] with rate 168 bytes, SHAKE domain padding `0x1F`,
and a little-endian hex digest.  Lanes are `Nat`s masked to 64 bits. -/

def M64 : Nat := 2 ^ 64

def rotl64 (x n : Nat) : Nat := ((x <<< n) ||| (x >>> (64 - n))) % M64

def not64 (x : Nat) : Nat := x ^^^ (M64 - 1)

/-- The 24 Keccak round constants (in decimal; the usual hex table values
`0x0000000000000001`, `0x0000000000008082`, ..., `0x8000000080008008`). -/
def keccakRC : List Nat :=
  [1, 32898, 9223372036854808714,
   9223372039002292224, 32907, 2147483649,
   9223372039002292353, 9223372036854808585, 138,
   136, 2147516425, 2147483658,
   2147516555, 9223372036854775947, 9223372036854808713,
   9223372036854808579, 9223372036854808578, 9223372036854775936,
   32778, 9223372039002259466, 9223372039002292353,
   9223372036854808704, 2147483649, 9223372039002292232]

/-- Rho rotation offsets, row by row (`y = 0..4`), indexed by lane
`x + 5*y` after flattening. -/
def rhoOff : List Nat :=
  List.flatten
    [[0, 1, 62, 28, 27],
     [36, 44, 6, 55, 20],
     [3, 10, 43, 25, 39],
     [41, 45, 15, 21, 8],
     [18, 2, 61, 56, 14]]

def lane (A : List Nat) (i : Nat) : Nat := A.getD i 0

def thetaStep (A : List Nat) : List Nat :=
  let C := List.ofFn (n := 5) fun x =>
    lane A x.val ^^^ lane A (x.val + 5) ^^^ lane A (x.val + 10) ^^^
    lane A (x.val + 15) ^^^ lane A (x.val + 20)
  let D := List.ofFn (n := 5) fun x =>
    lane C ((x.val + 4) % 5) ^^^ rotl64 (lane C ((x.val + 1) % 5)) 1
  List.ofFn (n := 25) fun i => lane A i.val ^^^ lane D (i.val % 5)

def rhoPiStep (A : List Nat) : List Nat :=
  -- lane (x, y) moves, rotated, to position (y, (2x + 3y) % 5)
  List.ofFn (n := 25) fun j =>
    -- find (x, y) with target index j = y + 5 * ((2x + 3y) % 5): invert by scanning
    let src := (List.range 25).findSome? fun i =>
      let x := i % 5
      let y := i / 5
      if y + 5 * ((2 * x + 3 * y) % 5) = j.val then some i else none
    match src with
    | some i => rotl64 (lane A i) (rhoOff.getD i 0)
    | none => 0

def chiStep (A : List Nat) : List Nat :=
  List.ofFn (n := 25) fun i =>
    let x := i.val % 5
    let y := i.val / 5
    lane A i.val ^^^ (not64 (lane A ((x + 1) % 5 + 5 * y)) &&& lane A ((x + 2) % 5 + 5 * y))

def iotaStep (rc : Nat) (A : List Nat) : List Nat :=
  match A with
  | [] => []
  | a :: rest => (a ^^^ rc) :: rest

def keccakF (A : List Nat) : List Nat :=
  keccakRC.foldl (fun st rc => iotaStep rc (chiStep (rhoPiStep (thetaStep st)))) A

/-- SHAKE-128 rate in bytes. -/
def shakeRate : Nat := 168

/-- Multi-rate padding for SHAKE: append `0x1F`, zero-fill, set top bit of the
last byte of the block (`pad10*1` with the SHAKE domain suffix). -/
def shakePad (msg : List Nat) : List Nat :=
  let q := shakeRate - msg.length % shakeRate
  if q = 1 then msg ++ [0x9F]
  else msg ++ [0x1F] ++ List.replicate (q - 2) 0 ++ [0x80]

/-- Split a byte list into rate-sized blocks (structural fuel recursion so the
kernel can evaluate it; each step consumes `shakeRate ≥ 1` bytes, so fuel equal
to the byte count suffices). -/
def toBlocksAux : Nat → List Nat → List (List Nat)
  | 0, _ => []
  | _, [] => []
  | fuel + 1, b :: bs => ((b :: bs).take shakeRate) :: toBlocksAux fuel ((b :: bs).drop shakeRate)

def toBlocks (bs : List Nat) : List (List Nat) := toBlocksAux bs.length bs

/-- Interpret 8 bytes (little-endian) as one 64-bit lane. -/
def bytesToLane (bs : List Nat) : Nat :=
  bs.foldr (fun b acc => acc * 256 + b % 256) 0

/-- XOR one 168-byte block into the first 21 lanes of the state. -/
def absorbBlock (st : List Nat) (block : List Nat) : List Nat :=
  let lanes := List.ofFn (n := 21) fun i =>
    bytesToLane ((block.drop (8 * i.val)).take 8)
  List.ofFn (n := 25) fun i =>
    if i.val < 21 then lane st i.val ^^^ lane lanes i.val else lane st i.val

def initState : List Nat := List.replicate 25 0

def absorb (msg : List Nat) : List Nat :=
  (toBlocks (shakePad msg)).foldl (fun st b => keccakF (absorbBlock st b)) initState

/-- Extract `n` output bytes (little-endian within each lane) from the state. -/
def squeezeBytes (st : List Nat) (n : Nat) : List Nat :=
  List.ofFn (n := n) fun j => (lane st (j.val / 8) >>> (8 * (j.val % 8))) % 256

def hexDigitChar (n : Nat) : Char :=
  "0123456789abcdef".toList.getD n '0'

def bytesToHexChars : List Nat → List Char
  | [] => []
  | b :: rest => hexDigitChar (b / 16 % 16) :: hexDigitChar (b % 16) :: bytesToHexChars rest

/-- UTF-8 encoding of one code point (`str.encode("UTF-8")`). -/
def charUtf8 (c : Char) : List Nat :=
  let n := c.toNat
  if n < 0x80 then [n]
  else if n < 0x800 then [0xC0 ||| (n >>> 6), 0x80 ||| (n &&& 0x3F)]
  else if n < 0x10000 then
    [0xE0 ||| (n >>> 12), 0x80 ||| ((n >>> 6) &&& 0x3F), 0x80 ||| (n &&& 0x3F)]
  else
    [0xF0 ||| (n >>> 18), 0x80 ||| ((n >>> 12) &&& 0x3F),
     0x80 ||| ((n >>> 6) &&& 0x3F), 0x80 ||| (n &&& 0x3F)]

def utf8Encode (s : String) : List Nat := s.toList.flatMap charUtf8

/-- `shake_128(msg).hexdigest(nBytes)`: hex string of the first `nBytes`
output bytes (twice that many hex characters). -/
def shake128Hexdigest (msg : List Nat) (nBytes : Nat) : String :=
  String.mk (bytesToHexChars (squeezeBytes (absorb msg) nBytes))

/-! ## `src/database/models.py` -/

namespace User

/-- `User.hash_id`: `shake_128(id.encode("UTF-8")).hexdigest(4)`. -/
def hash_id (id : String) : String := shake128Hexdigest (utf8Encode id) 4

end User

namespace LogGroup

/-- `LogGroup.hash_name`: `shake_128(name.encode("UTF-8")).hexdigest(8)`. -/
def hash_name (name : String) : String := shake128Hexdigest (utf8Encode name) 8

end LogGroup

/-! ### Story-id extraction (`Merge.transform_input`)

`Merge.transform_input` runs
`re.search(fr"([{project_acronym}]{{5,}}[\s_-]*)(\d+)", title + description, flags=re.I)`.
Interpolating the acronym between square brackets makes it a regex *character
class*: group 1 is five or more characters drawn from the acronym's letters
(case-insensitively), then optional whitespace/underscore/hyphen separators,
then group 2 is a run of digits.  The three character classes are pairwise
disjoint for a letters-only acronym, so greedy matching never backtracks
across them and `re.search`'s leftmost-match semantics reduce to the scan
below: at each start position take the maximal acronym-class run (needs
length ≥ 5), skip the maximal separator run, and require at least one
digit; the matched number is the maximal digit run. -/

/-- Characters matched by the `[\s_-]` separator class. -/
def sepChar (c : Char) : Bool :=
  c = ' ' ∨ c = '\t' ∨ c = '\n' ∨ c = '\r' ∨ c = '\x0b' ∨ c = '\x0c' ∨ c = '_' ∨ c = '-'

/-- ASCII whitespace as stripped by Python's `str.strip()` / `int()`. -/
def pyWhitespace (c : Char) : Bool :=
  c = ' ' ∨ c = '\t' ∨ c = '\n' ∨ c = '\r' ∨ c = '\x0b' ∨ c = '\x0c'

/-- Python `s.strip()`: remove leading and trailing whitespace. -/
def pyStrip (s : String) : String :=
  String.mk (((s.toList.dropWhile pyWhitespace).reverse.dropWhile pyWhitespace).reverse)

/-- The character class `[{acronym}]` under `re.I`: any character of the
acronym string, compared case-insensitively. -/
def acroClass (acronym : String) (c : Char) : Bool :=
  acronym.toList.any fun a => a.toLower = c.toLower

/-- `int` of a decimal digit string. -/
def digitsToNat (ds : List Char) : Nat :=
  ds.foldl (fun acc c => acc * 10 + (c.toNat - '0'.toNat)) 0

/-- Attempt to match `[{acronym}]{5,}[\s_-]*(\d+)` anchored at the head of the
character list; on success return the value of group 2. -/
def storyMatchAt (acroP : Char → Bool) (s : List Char) : Option Nat :=
  let run := s.takeWhile acroP
  if 5 ≤ run.length then
    let afterSep := (s.drop run.length).dropWhile sepChar
    let ds := afterSep.takeWhile Char.isDigit
    if ds.isEmpty then none else some (digitsToNat ds)
  else none

/-- `re.search` over the pattern: try every start position left to right. -/
def storySearch (acroP : Char → Bool) : List Char → Option Nat
  | [] => none
  | c :: rest =>
    match storyMatchAt acroP (c :: rest) with
    | some v => some v
    | none => storySearch acroP rest

namespace Merge

/-- The `story_id` field computed by `Merge.transform_input`:
`int(story_result.group(2)) if story_result else None`, then
`story_id if story_id and story_id < 1000 else None` (note that Python
truthiness also discards a matched value of `0`). -/
def transform_input_story_id (project_acronym : String) (title_description : String) :
    Option Nat :=
  match storySearch (acroClass project_acronym) title_description.toList with
  | none => none
  | some story_id => if story_id ≠ 0 ∧ story_id < 1000 then some story_id else none

end Merge

/-! ### Jira rows (`Story.transform_input`) -/

/-- Digit tail of Python `int(s)`: digits in which a single underscore may
appear between two digits.  `acc` is the value of the digits already read. -/
def parsePyDigitsAux : List Char → Nat → Option Nat
  | [], acc => some acc
  | '_' :: c :: rest, acc =>
    if c.isDigit then parsePyDigitsAux rest (acc * 10 + (c.toNat - '0'.toNat)) else none
  | ['_'], _ => none
  | c :: rest, acc =>
    if c.isDigit then parsePyDigitsAux rest (acc * 10 + (c.toNat - '0'.toNat)) else none

/-- Python `int(s)` digit-run grammar: a nonempty digit run with optional
single underscores between digits.  Returns `none` where `int` raises
`ValueError`. -/
def parsePyDigits : List Char → Option Nat
  | [] => none
  | c :: rest =>
    if c.isDigit then parsePyDigitsAux rest (c.toNat - '0'.toNat) else none

def parsePyInt (s : String) : Option Int :=
  let t := (pyStrip s).toList
  match t with
  | '-' :: rest => (parsePyDigits rest).map fun v => -(v : Int)
  | '+' :: rest => (parsePyDigits rest).map fun v => (v : Int)
  | rest => (parsePyDigits rest).map fun v => (v : Int)

/-- `SPRINT_RE.search(sprint)` for `SPRINT_RE = re.compile(r"\d+")`: the first
maximal digit run, as a number (`int(....group())`); `none` when the string
contains no digit (where the code raises `AttributeError` on the `None`
match object). -/
def sprintSearch (s : String) : Option Nat :=
  match s.toList.dropWhile (fun c => !c.isDigit) with
  | [] => none
  | ds => some (digitsToNat (ds.takeWhile Char.isDigit))

/-- The list comprehension
`[int(SPRINT_RE.search(sprint).group()) for sprint in sprints if sprint]`
restricted to its already-filtered input: evaluated left to right, the first
digit-free column raises (`none`). -/
def mapSprints : List String → Option (List Nat)
  | [] => some []
  | s :: rest => do
    let v ← sprintSearch s
    let vs ← mapSprints rest
    pure (v :: vs)

namespace Story

/-- `Story.transform_input` as a partial function: `none` where the Python
raises (`int(data[0])` fails, `data[0]` is missing, or a non-empty sprint
column has no digit so `.group()` is called on `None`). -/
def transform_input (data : List String) : Option (Int × List Nat) := do
  let c0 ← data.head?
  let id ← parsePyInt c0
  let sprints := data.drop 1
  let vals ← mapSprints (sprints.filter fun s => s ≠ "")
  pure (id, vals)

end Story

/-! ## `src/extract/jira.py` -/

/-- One `(label, record)` channel message of the Jira producer. -/
def storyLabel : String := "story"

/-- `Jira.__extract`, processing the non-header rows in order: returns the
messages queued before any failure, and whether the loop completed without
raising (`false` means the producer aborted on a row). -/
def jiraGo : List (List String) → List (String × (Int × List Nat)) × Bool
  | [] => ([], true)
  | row :: rest =>
    match Story.transform_input row with
    | none => ([], false)
    | some st =>
      let (ms, ok) := jiraGo rest
      ((storyLabel, st) :: ms, ok)

/-- `Jira.__extract` over the parsed CSV rows: row 0 is the header and is
skipped, every later row is transformed and queued. -/
def jiraExtract (rows : List (List String)) : List (String × (Int × List Nat)) × Bool :=
  jiraGo (rows.drop 1)

/-! ## `src/database/database.py` (Ingestion Writer)

Records flowing through the channel are opaque to the writer, so the record
type is a parameter `Rec`.  The store state keeps one table (a list of
records, in insertion order) per label, plus a flag recording that the
write-buffering storage layer was flushed (leaving the `with self.db:` block
closes the store, which flushes a `CachingMiddleware` when one is
configured). -/

/-- A channel message: `(label: string|none, record: mapping|none)`. -/
structure Msg (Rec : Type) where
  label : Option String
  record : Option Rec
  deriving DecidableEq

/-- The document-store state seen by the writer. -/
structure DB (Rec : Type) where
  tables : String → List Rec
  flushed : Bool

namespace Database

/-- `Database.insert`: append the document to the table named `label`. -/
def insert {Rec : Type} (label : String) (document : Rec) (db : DB Rec) : DB Rec :=
  { db with tables := fun l => if l = label then db.tables l ++ [document] else db.tables l }

/-- Leaving the `with self.db:` block: the store is closed, flushing any
write-buffering middleware. -/
def close {Rec : Type} (db : DB Rec) : DB Rec := { db with flushed := true }

/-- `Database.__listen` on a finite dequeue trace: insert while `label` is not
`none`, return (closing the store) at the first `none` label.  The result is
`none` when the writer does not return normally within the trace: either the
trace ends (the writer is still blocked on `queue.get()`) or a data message
carries no record (`Table.insert` of a non-mapping raises). -/
def listen {Rec : Type} : List (Msg Rec) → DB Rec → Option (DB Rec)
  | [], _ => none
  | ⟨some l, some r⟩ :: rest, db => listen rest (insert l r db)
  | ⟨some _, none⟩ :: _, _ => none
  | ⟨none, _⟩ :: _, db => some (close db)

/-- The cumulative effect of the data messages of a trace on the store
(used to state what `listen` writes). -/
def insertAll {Rec : Type} : List (Msg Rec) → DB Rec → DB Rec
  | [], db => db
  | ⟨some l, some r⟩ :: rest, db => insertAll rest (insert l r db)
  | _ :: rest, db => insertAll rest db

end Database

/-! ## `src/extract/gitlab.py` -/

/-- One remote page: the JSON body (a list of items) and the optional
`X-Next-Page` response header. -/
structure Page (Item : Type) where
  items : List Item
  nextPage : Option String

/-- `GitLab.__fetch_all`: follow the `X-Next-Page` cursor, concatenating the
items of every page.  The remote service is an oracle from the current value
of the `page` query parameter (`none` on the first request) to a response.
`fuel` bounds the number of requests (the generator itself is unbounded);
`none` means the fuel ran out before the walk finished.  Note the Python
truthiness test `if next_page := response.headers.get("X-Next-Page", None):`
— a *missing* header and an *empty* header both end the iteration. -/
def fetch_all {Item : Type} (server : Option String → Page Item) :
    Nat → Option String → Option (List Item)
  | 0, _ => none
  | fuel + 1, cur =>
    match (server cur).nextPage with
    | some s =>
      if s = "" then some (server cur).items
      else (fetch_all server fuel (some s)).map fun more => (server cur).items ++ more
    | none => some (server cur).items

/-- The chain of pages the cursor walk visits (auxiliary notion used to state
the pagination claim). -/
def pageChain {Item : Type} (server : Option String → Page Item) :
    Nat → Option String → Option (List (Page Item))
  | 0, _ => none
  | fuel + 1, cur =>
    match (server cur).nextPage with
    | some s =>
      if s = "" then some [server cur]
      else (pageChain server fuel (some s)).map fun more => server cur :: more
    | none => some [server cur]

/-- Auxiliary notion for the pagination claim: `isChain server cur pages`
says `pages` is exactly the sequence of responses a cursor walk starting at
`cur` visits — every page but the last carries a nonempty next-page cursor
naming the following request, and the walk ends exactly at the first
response with no (or an empty) cursor. -/
def isChain {Item : Type} (server : Option String → Page Item) :
    Option String → List (Page Item) → Prop
  | _, [] => False
  | cur, [p] => server cur = p ∧ (p.nextPage = none ∨ p.nextPage = some "")
  | cur, p :: p' :: rest =>
    server cur = p ∧ ∃ s, p.nextPage = some s ∧ s ≠ "" ∧ isChain server (some s) (p' :: rest)

/-! ### Dictionary semantics

Python dicts appear both in the blame-generator memo below and in the
CloudWatch extractor's pending/in-flight sets; they are modelled as
insertion-ordered association lists. -/

/-- Python dict assignment `d[k] = v`: update in place if the key exists,
otherwise append. -/
def dinsert {α : Type} (k : String) (v : α) : List (String × α) → List (String × α)
  | [] => [(k, v)]
  | (k', v') :: rest => if k' = k then (k, v) :: rest else (k', v') :: dinsert k v rest

/-- Python dict lookup: `d[k]` / the cache probe of a memoization key. -/
def dlookup {α : Type} (k : String) : List (String × α) → Option α
  | [] => none
  | (k', v) :: rest => if k' = k then some v else dlookup k rest

def keys {α : Type} (l : List (String × α)) : List String := l.map Prod.fst

/-! ### Blame correlation (`GitLab.blame`)

`blame` walks the candidate `(file, statement)` pairs extracted from the
error message by `ErrorLog.get_error_info`.  Remote interaction is
abstracted into two oracles that may fail with a `GitLabError`
(`Except.error ()`): `blameO file` describes what a *fresh* call to
`__fetch_blame` produces for `file`, and `identO mail` is the username
lookup (`__get_user_identifiers`).

`__fetch_blame` (gitlab.py:141–148) is `@cached` and returns the *generator*
made by `__fetch_all`, so the memo — keyed by `(project, file, time)`, of
which only `file` varies within one `blame` call — stores a one-shot
iterator: a later candidate naming the same file receives that same
generator in whatever consumed state earlier candidates left it.  The model
therefore threads a cache mapping each file to the items its suspended
iterator has not yet yielded.  `blameO file = .error ()` means the eager
`__fetch_most_recent_commit` call raised `GitLabError`, in which case
nothing is cached (`cachetools` does not memoize a raising call) and a
later same-file candidate calls afresh; `blameO file = .ok items` means a
generator yielding `items` is created and cached.  A page error raised
*during* iteration is observationally the same as exhaustion inside
`blame` — `except GitLabError: continue` catches it and the generator is
finished either way — so `items` is the sequence the iterator yields before
it ends, however it ends. -/

/-- One item of a GitLab blame response: a commit (its author email) and the
lines it covers. -/
structure BlameItem where
  lines : List String
  author_email : String
  deriving DecidableEq

/-- The `for item in self.__fetch_blame(...)` loop over the iterator's
remaining items: consume items until the first whose stripped lines contain
the statement; return the items left unconsumed after it together with the
matching commit's author email (`none`: the iterator ran out without a
match, consuming everything). -/
def scanItems (statement : String) : List BlameItem → List BlameItem × Option String
  | [] => ([], none)
  | item :: rest =>
    if statement ∈ item.lines.map pyStrip then (rest, some item.author_email)
    else scanItems statement rest

namespace GitLab

/-- One candidate of `GitLab.blame`'s `try` block, given the iterator's
remaining items: scan for the statement, store the consumed iterator back
into the memo, and on a line match resolve and hash the username (an
`identO` failure is caught by the `try` and fails the candidate, with the
items up to and including the matched one already consumed). -/
def blameScan (identO : String → Except Unit String)
    (cache : List (String × List BlameItem)) (file statement : String)
    (remaining : List BlameItem) : List (String × List BlameItem) × Option String :=
  match scanItems statement remaining with
  | (left, some mail) =>
    match identO mail with
    | .ok userid => (dinsert file left cache, some (User.hash_id userid))
    | .error _ => (dinsert file left cache, none)
  | (_, none) => (dinsert file [] cache, none)

/-- One candidate of `GitLab.blame`: resume the file's cached iterator if
one exists, otherwise call `__fetch_blame` afresh (a `GitLabError` from its
eager prelude caches nothing and fails the candidate). -/
def blameCandidate (blameO : String → Except Unit (List BlameItem))
    (identO : String → Except Unit String) (cache : List (String × List BlameItem))
    (file statement : String) : List (String × List BlameItem) × Option String :=
  match dlookup file cache with
  | some remaining => blameScan identO cache file statement remaining
  | none =>
    match blameO file with
    | .error _ => (cache, none)
    | .ok items => blameScan identO cache file statement items

/-- `GitLab.blame` over the candidate list `ErrorLog.get_error_info(message)`,
threading the `__fetch_blame` generator memo: the first candidate whose
lookup succeeds returns the hashed username; a failed candidate
(`GitLabError` caught, or no remaining line matches) is skipped and the
remaining candidates are examined against the updated memo; falling off the
loop returns `None`. -/
def blame (blameO : String → Except Unit (List BlameItem))
    (identO : String → Except Unit String) :
    List (String × String) → List (String × List BlameItem) → Option String
  | [], _ => none
  | (file, statement) :: rest, cache =>
    match blameCandidate blameO identO cache file statement with
    | (_, some result) => some result
    | (cache2, none) => blame blameO identO rest cache2

/-- The outcome of one candidate hitting a fresh, uncached iterator
(auxiliary notion used to state the amended claim). -/
def freshCand (blameO : String → Except Unit (List BlameItem))
    (identO : String → Except Unit String) (c : String × String) : Option String :=
  match blameO c.1 with
  | .error _ => none
  | .ok items =>
    match (scanItems c.2 items).2 with
    | some mail =>
      match identO mail with
      | .ok userid => some (User.hash_id userid)
      | .error _ => none
    | none => none

end GitLab

/-! ## `src/extract/cloudwatch.py`

The per-account extractor is an asynchronous query state machine.  Remote
interaction is abstracted into oracles: `subO lg (start, limit)` is the
service's reply to `start_query`, `pollO qid` its reply to
`get_query_results`.  The timestamp parser
`ErrorLog.log_timestamp_to_epoch` (`datetime.strptime(...).timestamp()`)
is an opaque parameter `parseTs`, and the blame correlation
`self.gitlab.blame(log, log_group)` an opaque parameter `blameF`. -/

def QUERY_LIMIT : Nat := 10000

namespace QueryStatus

def IN_PROGRESS : Nat := 0
def THROTTLED : Nat := 1
def LIMIT_REACHED : Nat := 2
def NOT_FOUND : Nat := 3

end QueryStatus

/-- Errors propagating out of the extractor: an unhandled
`botocore.ClientError` (by error code) or a `CloudWatchError` raised on an
unexpected query status. -/
inductive CWErr where
  | clientError (code : String)
  | cloudWatchError (status : String)
  deriving DecidableEq

/-- The remote reply to `start_query`: a query id, or a `ClientError` with
the given error code. -/
inductive SubmitResp where
  | ok (queryId : String)
  | clientError (code : String)
  deriving DecidableEq

/-- The remote reply to `get_query_results`: a `ClientError` with the given
code, or a response with a status string and (for `"Complete"`) a result
list. -/
inductive PollResp (Row : Type) where
  | clientError (code : String)
  | status (s : String) (results : List Row)

/-- `CloudWatch.__start_error_query`: translate the two handled error codes
into `QueryStatus` values, re-raise anything else. -/
def start_error_query (resp : SubmitResp) : Except CWErr (String ⊕ Nat) :=
  match resp with
  | .ok qid => .ok (.inl qid)
  | .clientError code =>
    if code = "LimitExceededException" then .ok (.inr QueryStatus.LIMIT_REACHED)
    else if code = "ResourceNotFoundException" then .ok (.inr QueryStatus.NOT_FOUND)
    else .error (.clientError code)

/-- `CloudWatch.__get_query_results`: `Complete` yields the result rows,
`Scheduled`/`Running` yield `IN_PROGRESS`, a throttling `ClientError` yields
`THROTTLED`; any other status raises `CloudWatchError` and any other
`ClientError` is re-raised. -/
def get_query_results {Row : Type} (resp : PollResp Row) : Except CWErr (List Row ⊕ Nat) :=
  match resp with
  | .clientError code =>
    if code = "ThrottlingException" then .ok (.inr QueryStatus.THROTTLED)
    else .error (.clientError code)
  | .status s results =>
    if s = "Complete" then .ok (.inl results)
    else if s = "Scheduled" ∨ s = "Running" then .ok (.inr QueryStatus.IN_PROGRESS)
    else .error (.cloudWatchError s)

/-- One CloudWatch query-result row `[@log, @timestamp, @message]`, each
entry's `"value"` field. -/
structure Row where
  logv : String
  tsv : String
  msgv : String
  deriving DecidableEq

/-- Values stored in the dict-shaped records flowing to the writer. -/
inductive Val where
  | vStr (s : String)
  | vInt (i : Int)
  | vOpt (o : Option String)
  deriving DecidableEq

/-- A queued channel message of this producer. -/
def QMsg : Type := String × List (String × Val)

namespace ErrorLog

/-- `ErrorLog.query_result_extract_group`: `data[0]["value"].split(":")[1]`
(the index raises if no `:` is present; CloudWatch's `@log` field is always
`account:loggroup`). -/
def query_result_extract_group (r : Row) : String :=
  (r.logv.splitOn ":").getD 1 ""

/-- `ErrorLog.transform_query_result` with the timestamp parser abstracted:
the dict `{loggroup, account, timestamp, message}` in insertion order. -/
def transform_query_result (parseTs : String → Int) (r : Row) (account : String) :
    List (String × Val) :=
  [("loggroup", .vStr (LogGroup.hash_name (query_result_extract_group r))),
   ("account", .vStr account),
   ("timestamp", .vInt (parseTs r.tsv)),
   ("message", .vStr r.msgv)]

end ErrorLog

namespace CloudWatch

/-- The body of the `for result in results:` loop of
`CloudWatch.__handle_query_results` for one row: build the transformed
record, set `author_id` to the blame correlation of that record, and queue
the record with the `"message"` key stripped. -/
def handle_one (parseTs : String → Int) (blameF : List (String × Val) → String → Option String)
    (account log_group : String) (r : Row) : QMsg :=
  let log := ErrorLog.transform_query_result parseTs r account
  let log2 := log ++ [("author_id", .vOpt (blameF log log_group))]
  ("errorlog", log2.filter fun kv => kv.1 ≠ "message")

/-- `CloudWatch.__handle_query_results`: one queued message per result row,
in row order. -/
def handle_query_results (parseTs : String → Int)
    (blameF : List (String × Val) → String → Option String)
    (account log_group : String) (results : List Row) : List QMsg :=
  results.map (handle_one parseTs blameF account log_group)

/-- `results[-1]` (only evaluated under the `len(results) >= QUERY_LIMIT`
guard, so the list is nonempty there). -/
def lastRow (results : List Row) : Row := results.getLastD ⟨"", "", ""⟩

/-- The inner `while log_groups:` submission loop of
`CloudWatch.__query_logs` (lines 100–111): submit the first pending log
group; `LIMIT_REACHED` breaks out leaving the group pending, `NOT_FOUND`
drops the group, a started query moves it to the in-flight dict, any other
client error propagates. -/
def submitLoop (subO : String → Int × Int → SubmitResp) :
    List (String × (Int × Int)) → List (String × String) →
    Except CWErr (List (String × (Int × Int)) × List (String × String))
  | [], queries => .ok ([], queries)
  | (lg, w) :: rest, queries =>
    match start_error_query (subO lg w) with
    | .error e => .error e
    | .ok (.inr s) =>
      if s = QueryStatus.LIMIT_REACHED then .ok ((lg, w) :: rest, queries)
      else submitLoop subO rest queries
    | .ok (.inl qid) => submitLoop subO rest (dinsert lg qid queries)

/-- The polling pass of `CloudWatch.__query_logs` (lines 113–129), iterating
the in-flight dict from the last entry to the first; the list argument here
is already reversed (see `pollPass`).  `IN_PROGRESS`/`THROTTLED` keep the
query in flight; a completed query is handled (queue output is appended) and
popped, and if its result list reaches `QUERY_LIMIT` the log group is
re-added to the pending dict with the window
`(timestamp of results[-1], config.limit_timestamp)`. -/
def pollPassAux (pollO : String → PollResp Row) (parseTs : String → Int)
    (blameF : List (String × Val) → String → Option String)
    (account : String) (limit_timestamp : Int) :
    List (String × String) → List (String × (Int × Int)) → List QMsg →
    Except CWErr (List (String × String) × List (String × (Int × Int)) × List QMsg)
  | [], log_groups, out => .ok ([], log_groups, out)
  | (lg, q) :: rest, log_groups, out =>
    match get_query_results (pollO q) with
    | .error e => .error e
    | .ok (.inr _) =>
      match pollPassAux pollO parseTs blameF account limit_timestamp rest log_groups out with
      | .error e => .error e
      | .ok (qs, lgs, out') => .ok ((lg, q) :: qs, lgs, out')
    | .ok (.inl results) =>
      let out2 := out ++ handle_query_results parseTs blameF account lg results
      let lgs2 :=
        if QUERY_LIMIT ≤ results.length then
          dinsert lg (parseTs (lastRow results).tsv, limit_timestamp) log_groups
        else log_groups
      pollPassAux pollO parseTs blameF account limit_timestamp rest lgs2 out2

/-- The polling pass on the in-flight dict in its stored order: the Python
`for i in range(len(queries)-1, -1, -1)` visits entries last-to-first and
pops completed ones, which is the reversed traversal above; surviving
entries keep their original order. -/
def pollPass (pollO : String → PollResp Row) (parseTs : String → Int)
    (blameF : List (String × Val) → String → Option String)
    (account : String) (limit_timestamp : Int)
    (queries : List (String × String)) (log_groups : List (String × (Int × Int)))
    (out : List QMsg) :
    Except CWErr (List (String × String) × List (String × (Int × Int)) × List QMsg) :=
  match pollPassAux pollO parseTs blameF account limit_timestamp queries.reverse log_groups out with
  | .error e => .error e
  | .ok (qs, lgs, out') => .ok (qs.reverse, lgs, out')

/-- The mutable state of `CloudWatch.__query_logs`: the pending dict
`log_groups`, the in-flight dict `queries`, and the messages queued so far. -/
structure QState where
  log_groups : List (String × (Int × Int))
  queries : List (String × String)
  out : List QMsg

/-- One iteration of the outer `while True:` loop: the submission loop, then
the polling pass. -/
def query_cycle (subO : String → Int × Int → SubmitResp) (pollO : String → PollResp Row)
    (parseTs : String → Int) (blameF : List (String × Val) → String → Option String)
    (account : String) (limit_timestamp : Int) (st : QState) : Except CWErr QState :=
  match submitLoop subO st.log_groups st.queries with
  | .error e => .error e
  | .ok (lgs1, qs1) =>
    match pollPass pollO parseTs blameF account limit_timestamp qs1 lgs1 st.out with
    | .error e => .error e
    | .ok (qs2, lgs2, out2) => .ok ⟨lgs2, qs2, out2⟩

/-- The outer `while True:` loop of `CloudWatch.__query_logs`, with oracles
indexed by the cycle number (remote replies change over time) and a fuel
bound.  `.ok (some st)` is normal termination via the
`if not log_groups and not queries: break` check at the end of a cycle,
`.ok none` means the fuel ran out with the loop still running, `.error`
an exception propagating out. -/
def query_logs_loop (subO : Nat → String → Int × Int → SubmitResp)
    (pollO : Nat → String → PollResp Row) (parseTs : String → Int)
    (blameF : List (String × Val) → String → Option String)
    (account : String) (limit_timestamp : Int) :
    Nat → Nat → QState → Except CWErr (Option QState)
  | 0, _, _ => .ok none
  | fuel + 1, i, st =>
    match query_cycle (subO i) (pollO i) parseTs blameF account limit_timestamp st with
    | .error e => .error e
    | .ok st' =>
      if st'.log_groups = [] ∧ st'.queries = [] then .ok (some st')
      else query_logs_loop subO pollO parseTs blameF account limit_timestamp fuel (i + 1) st'

/-- `CloudWatch.__query_logs`: initialise every configured log group as
pending over `(start_timestamp, limit_timestamp)` and run the loop. -/
def query_logs (subO : Nat → String → Int × Int → SubmitResp)
    (pollO : Nat → String → PollResp Row) (parseTs : String → Int)
    (blameF : List (String × Val) → String → Option String)
    (account : String) (start_timestamp limit_timestamp : Int)
    (log_groups : List String) (fuel : Nat) : Except CWErr (Option QState) :=
  let pending := log_groups.foldl
    (fun acc lg => dinsert lg (start_timestamp, limit_timestamp) acc) []
  query_logs_loop subO pollO parseTs blameF account limit_timestamp fuel 0 ⟨pending, [], []⟩

end CloudWatch

/-! # Helper lemmas -/

theorem listen_no_sentinel {Rec : Type} (msgs : List (Msg Rec)) :
    ∀ db : DB Rec, (∀ m ∈ msgs, m.label ≠ none) → Database.listen msgs db = none := by
  induction msgs with
  | nil => intro db _; rfl
  | cons m rest ih =>
    intro db h
    obtain ⟨ml, mr⟩ := m
    cases ml with
    | none => exact absurd rfl (h ⟨none, mr⟩ (by simp))
    | some l =>
      cases mr with
      | none => rfl
      | some r =>
        simpa [Database.listen] using ih (Database.insert l r db) fun m' hm' => h m' (by simp [hm'])

theorem listen_runs {Rec : Type} (pre : List (Msg Rec)) :
    ∀ (rest : List (Msg Rec)) (db : DB Rec),
      (∀ m ∈ pre, ∃ l r, m = ⟨some l, some r⟩) →
      Database.listen (pre ++ ⟨none, none⟩ :: rest) db =
        some (Database.close (Database.insertAll pre db)) := by
  induction pre with
  | nil => intro rest db _; rfl
  | cons m pre ih =>
    intro rest db h
    obtain ⟨l, r, rfl⟩ := h m (by simp)
    simpa [Database.listen, Database.insertAll] using
      ih rest (Database.insert l r db) fun m' hm' => h m' (by simp [hm'])

theorem insertAll_tables {Rec : Type} (pre : List (Msg Rec)) :
    ∀ (db : DB Rec) (lbl : String),
      (Database.insertAll pre db).tables lbl =
        db.tables lbl ++ pre.filterMap fun m =>
          if m.label = some lbl then m.record else none := by
  induction pre with
  | nil => intro db lbl; simp [Database.insertAll]
  | cons m pre ih =>
    intro db lbl
    obtain ⟨ml, mr⟩ := m
    cases ml with
    | none => simp [Database.insertAll, ih]
    | some l =>
      cases mr with
      | none =>
        simp only [Database.insertAll, ih, List.filterMap_cons]
        by_cases hl : l = lbl <;> simp [hl]
      | some r =>
        simp only [Database.insertAll, ih, List.filterMap_cons]
        by_cases hl : l = lbl
        · subst hl
          simp [Database.insert, List.append_assoc]
        · have hl' : lbl ≠ l := fun hh => hl hh.symm
          simp [Database.insert, hl, hl']

/-! # Claim theorems -/

/-- C1 counterexample: with configured acronym `PROJ`, a merge request whose
title+description is `"PROJ-42 fix bug"` does *not* get story id 42 — the
acronym is interpolated into a regex character class, and `PROJ` offers only
four characters of that class before the separator. -/
theorem C1_counterexample :
    Merge.transform_input_story_id "PROJ" "PROJ-42 fix bug" ≠ some 42 := by decide

/-- C1 (amended): `"PROJ-42 fix bug"` with acronym `PROJ` yields *no* story
id, because `[{acronym}]{5,}` needs at least five consecutive characters
drawn from the acronym's letters (`"PROJJ-42 fix bug"` does yield 42); and
whenever the issue-key pattern matches with numeric value `v`, the story id
is `v` exactly when `0 < v < 1000`, with `v = 0` and `v ≥ 1000` both
yielding `none`. -/
theorem C1_story_id_extraction :
    Merge.transform_input_story_id "PROJ" "PROJ-42 fix bug" = none ∧
    Merge.transform_input_story_id "PROJ" "PROJJ-42 fix bug" = some 42 ∧
    ∀ (acronym s : String) (v : Nat),
      storySearch (acroClass acronym) s.toList = some v →
      Merge.transform_input_story_id acronym s =
        if 0 < v ∧ v < 1000 then some v else none := by
  refine ⟨by decide, by decide, ?_⟩
  intro acronym s v h
  simp only [Merge.transform_input_story_id, h]
  by_cases h0 : v = 0
  · subst h0; simp
  · have h0' : 0 < v := Nat.pos_of_ne_zero h0
    by_cases h1 : v < 1000 <;> simp [h0, h1, h0']

/-- C1 witness: the general part of the amended claim, instantiated at the
match `"PROJJ-42 fix bug"` with acronym `PROJ` and value 42. -/
theorem C1_story_id_extraction_witness :
    storySearch (acroClass "PROJ") "PROJJ-42 fix bug".toList = some 42 ∧
    Merge.transform_input_story_id "PROJ" "PROJJ-42 fix bug" =
      (if 0 < 42 ∧ 42 < 1000 then some 42 else none) :=
  ⟨by decide, C1_story_id_extraction.2.2 "PROJ" "PROJJ-42 fix bug" 42 (by decide)⟩

/-- C2: for a finite dequeue trace consisting of data messages (label and
record both present) followed by the sentinel `(none, none)`, the writer
inserts every data message into the table named by its label, in dequeue
order, returns exactly at the sentinel, and the store is closed/flushed on
exit; a trace with no `none`-labelled message never makes the writer
return. -/
theorem C2_writer_loop {Rec : Type} (pre rest : List (Msg Rec)) (db : DB Rec)
    (hpre : ∀ m ∈ pre, ∃ l r, m = ⟨some l, some r⟩) :
    Database.listen (pre ++ ⟨none, none⟩ :: rest) db =
      some (Database.close (Database.insertAll pre db)) ∧
    (Database.close (Database.insertAll pre db)).flushed = true ∧
    (∀ lbl, (Database.close (Database.insertAll pre db)).tables lbl =
      db.tables lbl ++ pre.filterMap fun m =>
        if m.label = some lbl then m.record else none) ∧
    (∀ msgs : List (Msg Rec), (∀ m ∈ msgs, m.label ≠ none) →
      Database.listen msgs db = none) := by
  refine ⟨listen_runs pre rest db hpre, rfl, ?_, fun msgs h => listen_no_sentinel msgs db h⟩
  intro lbl
  simpa [Database.close] using insertAll_tables pre db lbl

/-- C2 witness: a two-message trace followed by the sentinel, on an empty
store holding `Nat` records. -/
theorem C2_writer_loop_witness :
    (∀ m ∈ [(⟨some "user", some 1⟩ : Msg Nat), ⟨some "user", some 2⟩],
      ∃ l r, m = ⟨some l, some r⟩) ∧
    Database.listen
        ([(⟨some "user", some 1⟩ : Msg Nat), ⟨some "user", some 2⟩] ++ ⟨none, none⟩ :: [])
        ⟨fun _ => [], false⟩ =
      some (Database.close
        (Database.insertAll [(⟨some "user", some 1⟩ : Msg Nat), ⟨some "user", some 2⟩]
          ⟨fun _ => [], false⟩)) := by
  have hpre : ∀ m ∈ [(⟨some "user", some 1⟩ : Msg Nat), ⟨some "user", some 2⟩],
      ∃ l r, m = ⟨some l, some r⟩ := by
    intro m hm
    rcases List.mem_cons.mp hm with rfl | hm'
    · exact ⟨"user", 1, rfl⟩
    rcases List.mem_cons.mp hm' with rfl | hm''
    · exact ⟨"user", 2, rfl⟩
    cases hm''
  exact ⟨hpre, (C2_writer_loop _ [] _ hpre).1⟩

/-- C9: for every completed query result row, the record queued by
`__handle_query_results` has exactly the keys `loggroup`, `account`,
`timestamp` and `author_id` (the transformed record minus `message`), with
`author_id` the blame-correlation result on the transformed record; the raw
message text is never queued, and the handler queues one such message per
row in row order. -/
theorem C9_message_stripping (parseTs : String → Int)
    (blameF : List (String × Val) → String → Option String) (account log_group : String) :
    (∀ r : Row,
      CloudWatch.handle_one parseTs blameF account log_group r =
        ("errorlog",
          [("loggroup", .vStr (LogGroup.hash_name (ErrorLog.query_result_extract_group r))),
           ("account", .vStr account),
           ("timestamp", .vInt (parseTs r.tsv)),
           ("author_id",
            .vOpt (blameF (ErrorLog.transform_query_result parseTs r account) log_group))]) ∧
      "message" ∉ keys (CloudWatch.handle_one parseTs blameF account log_group r).2) ∧
    ∀ results : List Row,
      CloudWatch.handle_query_results parseTs blameF account log_group results =
        results.map (CloudWatch.handle_one parseTs blameF account log_group) := by
  refine ⟨fun r => ⟨rfl, ?_⟩, fun results => rfl⟩
  simp [CloudWatch.handle_one, ErrorLog.transform_query_result, keys]

theorem pageChain_ne_nil {Item : Type} (server : Option String → Page Item) :
    ∀ (fuel : Nat) (cur : Option String) (pages : List (Page Item)),
      pageChain server fuel cur = some pages → pages ≠ [] := by
  intro fuel
  induction fuel with
  | zero => intro cur pages h; cases h
  | succ n ih =>
    intro cur pages h
    simp only [pageChain] at h
    split at h
    next s hnp =>
      by_cases hs : s = ""
      · rw [if_pos hs] at h
        injection h with h; subst h; simp
      · rw [if_neg hs] at h
        rcases Option.map_eq_some'.mp h with ⟨more, _, rfl⟩
        simp
    next hnp =>
      injection h with h; subst h; simp

/-- C5: for every remote page sequence reachable by the cursor walk
(`pageChain`), `__fetch_all` yields exactly the concatenation of every
page's items in page order; the visited pages form a chain in which every
page except the last carries a (nonempty) next-page cursor naming the
following request and the last carries none (iteration stops exactly at the
first response with no cursor — Python truthiness also ends it on an empty
header); and within any request budget the walk fails to finish exactly
when the chain does. -/
theorem C5_pagination {Item : Type} (server : Option String → Page Item) :
    (∀ (fuel : Nat) (cur : Option String) (pages : List (Page Item)),
       pageChain server fuel cur = some pages →
       fetch_all server fuel cur = some (pages.flatMap Page.items) ∧
       isChain server cur pages) ∧
    (∀ (fuel : Nat) (cur : Option String),
       pageChain server fuel cur = none ↔ fetch_all server fuel cur = none) := by
  constructor
  · intro fuel
    induction fuel with
    | zero => intro cur pages h; cases h
    | succ n ih =>
      intro cur pages h
      simp only [pageChain] at h
      split at h
      next s hnp =>
        by_cases hs : s = ""
        · rw [if_pos hs] at h
          injection h with h; subst h
          refine ⟨by simp [fetch_all, hnp, hs], rfl, Or.inr ?_⟩
          rw [hnp, hs]
        · rw [if_neg hs] at h
          rcases Option.map_eq_some'.mp h with ⟨more, hc, rfl⟩
          obtain ⟨hf, hchain⟩ := ih (some s) more hc
          have hne := pageChain_ne_nil server n (some s) more hc
          refine ⟨by simp [fetch_all, hnp, hs, hf], ?_⟩
          cases more with
          | nil => exact absurd rfl hne
          | cons p ps => exact ⟨rfl, s, hnp, hs, hchain⟩
      next hnp =>
        injection h with h; subst h
        exact ⟨by simp [fetch_all, hnp], rfl, Or.inl hnp⟩
  · intro fuel
    induction fuel with
    | zero => intro cur; simp [pageChain, fetch_all]
    | succ n ih =>
      intro cur
      simp only [pageChain, fetch_all]
      cases hnp : (server cur).nextPage with
      | none => simp
      | some s =>
        by_cases hs : s = ""
        · simp [hs]
        · simp [hs, Option.map_eq_none', ih]

/-- C5 witness: a concrete two-page walk. -/
theorem C5_pagination_witness :
    pageChain
        (fun cur => if cur = none then Page.mk [1, 2] (some "2") else Page.mk [3] none)
        2 none =
      some [Page.mk [1, 2] (some "2"), Page.mk ([3] : List Nat) none] ∧
    fetch_all
        (fun cur => if cur = none then Page.mk [1, 2] (some "2") else Page.mk [3] none)
        2 none =
      some ([Page.mk [1, 2] (some "2"), Page.mk ([3] : List Nat) none].flatMap Page.items) :=
  ⟨rfl, ((C5_pagination
      (fun cur => if cur = none then Page.mk [1, 2] (some "2") else Page.mk [3] none)).1
    2 none [Page.mk [1, 2] (some "2"), Page.mk ([3] : List Nat) none] rfl).1⟩

theorem dlookup_dinsert {α : Type} (k k' : String) (v : α) :
    ∀ l : List (String × α),
      dlookup k (dinsert k' v l) = if k' = k then some v else dlookup k l := by
  intro l
  induction l with
  | nil => simp [dinsert, dlookup]
  | cons p rest ih =>
    obtain ⟨k0, v0⟩ := p
    by_cases h0 : k0 = k'
    · subst h0
      simp only [dinsert, if_pos rfl]
      by_cases h : k0 = k <;> simp [dlookup, h]
    · simp only [dinsert, if_neg h0, dlookup, ih]
      by_cases h : k0 = k
      · subst h
        have hne : ¬ k' = k0 := fun hh => h0 hh.symm
        simp [hne]
      · simp [h]

/-- C7 counterexample: with candidates `("a.py", "s2")` then `("a.py", "s1")`
and the file's blame annotation containing the stripped line `"s1"`, the
first candidate exhausts the memoized one-shot blame iterator, so the
second candidate — the first whose blamed lines contain its statement —
scans no items: `blame` returns `none`, not the committer's hashed
identity.  The same candidate alone does return it. -/
theorem C7_counterexample :
    GitLab.blame (fun _ => .ok [BlameItem.mk ["s1"] "bob@x"]) (fun _ => .ok "bob")
        [("a.py", "s2"), ("a.py", "s1")] [] = none ∧
    "s1" ∈ (BlameItem.mk ["s1"] "bob@x").lines.map pyStrip ∧
    GitLab.blame (fun _ => .ok [BlameItem.mk ["s1"] "bob@x"]) (fun _ => .ok "bob")
        [("a.py", "s1")] [] = some (User.hash_id "bob") :=
  ⟨rfl, by decide, rfl⟩

/-- C7 (amended): `blame` threads `__fetch_blame`'s memoized one-shot
iterators.  When every candidate's file is uncached and the files are
pairwise distinct, the claimed contract holds: the first candidate whose
fetch succeeds and whose blamed lines, stripped, contain the statement
yields the committer's hashed identity, a failing candidate (`GitLabError`,
or no matching line) is skipped without aborting the others, and `none`
results when every candidate fails.  For repeated files the memo changes
the outcome: a `GitLabError` from the eager prelude caches nothing, so the
candidate is skipped and a later same-file candidate retries afresh; but a
candidate that exhausted its file's iterator leaves the spent iterator in
the memo, and a later candidate on that file scans no items and can never
match (see the counterexample). -/
theorem C7_blame_generator_cache (blameO : String → Except Unit (List BlameItem))
    (identO : String → Except Unit String) :
    (∀ (cands : List (String × String)) (cache : List (String × List BlameItem)),
       (∀ c ∈ cands, dlookup c.1 cache = none) →
       (cands.map Prod.fst).Nodup →
       GitLab.blame blameO identO cands cache =
         cands.findSome? (GitLab.freshCand blameO identO)) ∧
    (∀ (file statement : String) (rest : List (String × String))
       (cache : List (String × List BlameItem)),
       dlookup file cache = none → blameO file = .error () →
       GitLab.blame blameO identO ((file, statement) :: rest) cache =
         GitLab.blame blameO identO rest cache) ∧
    (∀ (file statement : String) (rest : List (String × String))
       (cache : List (String × List BlameItem)),
       dlookup file cache = some [] →
       GitLab.blame blameO identO ((file, statement) :: rest) cache =
         GitLab.blame blameO identO rest (dinsert file [] cache)) := by
  refine ⟨?_, ?_, ?_⟩
  · intro cands
    induction cands with
    | nil => intro cache _ _; rfl
    | cons c rest ih =>
      intro cache hfresh hnodup
      obtain ⟨file, stmt⟩ := c
      have hf : dlookup file cache = none := hfresh (file, stmt) (by simp)
      rw [List.map_cons] at hnodup
      obtain ⟨hnotin, hnd⟩ := List.nodup_cons.mp hnodup
      have hfresh2 : ∀ left : List BlameItem, ∀ c' ∈ rest,
          dlookup c'.1 (dinsert file left cache) = none := by
        intro left c' hc'
        rw [dlookup_dinsert]
        have hne : ¬ file = c'.1 := by
          intro hh
          rw [hh] at hnotin
          exact hnotin (List.mem_map.mpr ⟨c', hc', rfl⟩)
        rw [if_neg hne]
        exact hfresh c' (by simp [hc'])
      have hrest : ∀ c' ∈ rest, dlookup c'.1 cache = none :=
        fun c' hc' => hfresh c' (by simp [hc'])
      rw [List.findSome?_cons]
      cases hb : blameO file with
      | error e =>
        have hbc : GitLab.blameCandidate blameO identO cache file stmt = (cache, none) := by
          simp [GitLab.blameCandidate, hf, hb]
        simp only [GitLab.blame, hbc]
        have hcand : GitLab.freshCand blameO identO (file, stmt) = none := by
          simp [GitLab.freshCand, hb]
        rw [hcand]
        exact ih cache hrest hnd
      | ok items =>
        rcases hscan : scanItems stmt items with ⟨left, hit⟩
        cases hit with
        | none =>
          have hbc : GitLab.blameCandidate blameO identO cache file stmt =
              (dinsert file [] cache, none) := by
            simp [GitLab.blameCandidate, hf, hb, GitLab.blameScan, hscan]
          simp only [GitLab.blame, hbc]
          have hcand : GitLab.freshCand blameO identO (file, stmt) = none := by
            simp [GitLab.freshCand, hb, hscan]
          rw [hcand]
          exact ih (dinsert file [] cache) (hfresh2 []) hnd
        | some mail =>
          cases hi : identO mail with
          | ok userid =>
            have hbc : GitLab.blameCandidate blameO identO cache file stmt =
                (dinsert file left cache, some (User.hash_id userid)) := by
              simp [GitLab.blameCandidate, hf, hb, GitLab.blameScan, hscan, hi]
            simp only [GitLab.blame, hbc]
            have hcand : GitLab.freshCand blameO identO (file, stmt) =
                some (User.hash_id userid) := by
              simp [GitLab.freshCand, hb, hscan, hi]
            rw [hcand]
          | error e =>
            have hbc : GitLab.blameCandidate blameO identO cache file stmt =
                (dinsert file left cache, none) := by
              simp [GitLab.blameCandidate, hf, hb, GitLab.blameScan, hscan, hi]
            simp only [GitLab.blame, hbc]
            have hcand : GitLab.freshCand blameO identO (file, stmt) = none := by
              simp [GitLab.freshCand, hb, hscan, hi]
            rw [hcand]
            exact ih (dinsert file left cache) (hfresh2 left) hnd
  · intro file stmt rest cache hf hb
    have hbc : GitLab.blameCandidate blameO identO cache file stmt = (cache, none) := by
      simp [GitLab.blameCandidate, hf, hb]
    simp only [GitLab.blame, hbc]
  · intro file stmt rest cache hf
    have hbc : GitLab.blameCandidate blameO identO cache file stmt =
        (dinsert file [] cache, none) := by
      simp [GitLab.blameCandidate, hf, GitLab.blameScan, scanItems]
    simp only [GitLab.blame, hbc]

/-- C7 witness: the fresh-cache distinct-files law on a two-candidate list
whose first candidate raises, and the two skip laws, each at concrete
inputs. -/
theorem C7_blame_generator_cache_witness :
    (∀ c ∈ [("a.py", "s1"), ("b.py", "s2")],
       dlookup c.1 ([] : List (String × List BlameItem)) = none) ∧
    ([("a.py", "s1"), ("b.py", "s2")].map Prod.fst).Nodup ∧
    GitLab.blame
        (fun f => if f = "a.py" then .error () else .ok [BlameItem.mk ["  s2  "] "bob@x"])
        (fun _ => .ok "bob") [("a.py", "s1"), ("b.py", "s2")] [] =
      [("a.py", "s1"), ("b.py", "s2")].findSome?
        (GitLab.freshCand
          (fun f => if f = "a.py" then .error () else .ok [BlameItem.mk ["  s2  "] "bob@x"])
          (fun _ => .ok "bob")) ∧
    GitLab.blame
        (fun f => if f = "a.py" then .error () else .ok [BlameItem.mk ["  s2  "] "bob@x"])
        (fun _ => .ok "bob") (("a.py", "s1") :: [("b.py", "s2")]) [] =
      GitLab.blame
        (fun f => if f = "a.py" then .error () else .ok [BlameItem.mk ["  s2  "] "bob@x"])
        (fun _ => .ok "bob") [("b.py", "s2")] [] ∧
    GitLab.blame
        (fun f => if f = "a.py" then .error () else .ok [BlameItem.mk ["  s2  "] "bob@x"])
        (fun _ => .ok "bob") (("b.py", "zz") :: []) [("b.py", [])] =
      GitLab.blame
        (fun f => if f = "a.py" then .error () else .ok [BlameItem.mk ["  s2  "] "bob@x"])
        (fun _ => .ok "bob") [] (dinsert "b.py" [] [("b.py", [])]) :=
  ⟨by decide, by decide,
   (C7_blame_generator_cache _ _).1 [("a.py", "s1"), ("b.py", "s2")] []
     (by decide) (by decide),
   (C7_blame_generator_cache _ _).2.1 "a.py" "s1" [("b.py", "s2")] [] rfl rfl,
   (C7_blame_generator_cache _ _).2.2 "b.py" "zz" [] [("b.py", [])] rfl⟩

theorem mem_keys_dinsert {α : Type} (k : String) (v : α) :
    ∀ (l : List (String × α)) (x : String),
      x ∈ keys (dinsert k v l) ↔ x = k ∨ x ∈ keys l := by
  intro l
  induction l with
  | nil => intro x; simp [dinsert, keys]
  | cons p rest ih =>
    intro x
    obtain ⟨k', v'⟩ := p
    by_cases hk : k' = k
    · subst hk
      have hd : dinsert k' v ((k', v') :: rest) = (k', v) :: rest := by
        simp [dinsert]
      rw [hd]
      simp only [keys, List.map_cons, List.mem_cons]
      tauto
    · simp only [dinsert, if_neg hk, keys, List.map_cons, List.mem_cons]
      have h2 := ih x
      simp only [keys] at h2
      rw [h2]
      tauto

theorem submitLoop_keys (subO : String → Int × Int → SubmitResp) :
    ∀ (pending : List (String × (Int × Int))) (queries : List (String × String))
      (lgs' : List (String × (Int × Int))) (qs' : List (String × String)),
      CloudWatch.submitLoop subO pending queries = .ok (lgs', qs') →
      (∀ x, x ∈ keys lgs' → x ∈ keys pending) ∧
      (∀ x, x ∈ keys qs' → x ∈ keys queries ∨ x ∈ keys pending) := by
  intro pending
  induction pending with
  | nil =>
    intro queries lgs' qs' h
    simp only [CloudWatch.submitLoop, Except.ok.injEq, Prod.mk.injEq] at h
    obtain ⟨h1, h2⟩ := h
    subst h1; subst h2
    exact ⟨fun x hx => by simp [keys] at hx, fun x hx => Or.inl hx⟩
  | cons p rest ih =>
    intro queries lgs' qs' h
    obtain ⟨lg, w⟩ := p
    cases hs : start_error_query (subO lg w) with
    | error e => simp [CloudWatch.submitLoop, hs] at h
    | ok sr =>
      cases sr with
      | inl qid =>
        simp only [CloudWatch.submitLoop, hs] at h
        obtain ⟨ha, hb⟩ := ih (dinsert lg qid queries) lgs' qs' h
        refine ⟨fun x hx => ?_, fun x hx => ?_⟩
        · simpa [keys] using Or.inr (by simpa [keys] using ha x hx)
        · rcases hb x hx with hq | hr
          · rcases (mem_keys_dinsert lg qid queries x).mp hq with rfl | hq'
            · right; simp [keys]
            · exact Or.inl hq'
          · right
            simp only [keys, List.map_cons, List.mem_cons]
            exact Or.inr (by simpa [keys] using hr)
      | inr s =>
        by_cases hlim : s = QueryStatus.LIMIT_REACHED
        · subst hlim
          simp only [CloudWatch.submitLoop, hs, if_true] at h
          injection h with h
          injection h with h1 h2
          subst h1; subst h2
          exact ⟨fun x hx => hx, fun x hx => Or.inl hx⟩
        · simp only [CloudWatch.submitLoop, hs, if_neg hlim] at h
          obtain ⟨ha, hb⟩ := ih queries lgs' qs' h
          refine ⟨fun x hx => ?_, fun x hx => ?_⟩
          · simp only [keys, List.map_cons, List.mem_cons]
            exact Or.inr (by simpa [keys] using ha x hx)
          · rcases hb x hx with hq | hr
            · exact Or.inl hq
            · right
              simp only [keys, List.map_cons, List.mem_cons]
              exact Or.inr (by simpa [keys] using hr)

/-- C3: in the polling pass, a completed query whose result list reaches
`QUERY_LIMIT` re-adds its log group to the pending dict with start time the
parsed timestamp of the last result row (`results[-1]`) and end time the
unchanged configured `limit_timestamp`, after queuing the handled rows; a
completed query under the cap queues its rows but does not re-submit the log
group.  In both cases the query leaves the in-flight set. -/
theorem C3_sliding_window (pollO : String → PollResp Row) (parseTs : String → Int)
    (blameF : List (String × Val) → String → Option String) (account : String)
    (limit_timestamp : Int) (lg q : String) (rest : List (String × String))
    (lgs : List (String × (Int × Int))) (out : List QMsg) (results : List Row)
    (hc : pollO q = .status "Complete" results) :
    (QUERY_LIMIT ≤ results.length →
      CloudWatch.pollPassAux pollO parseTs blameF account limit_timestamp
          ((lg, q) :: rest) lgs out =
        CloudWatch.pollPassAux pollO parseTs blameF account limit_timestamp rest
          (dinsert lg (parseTs (CloudWatch.lastRow results).tsv, limit_timestamp) lgs)
          (out ++ CloudWatch.handle_query_results parseTs blameF account lg results)) ∧
    (results.length < QUERY_LIMIT →
      CloudWatch.pollPassAux pollO parseTs blameF account limit_timestamp
          ((lg, q) :: rest) lgs out =
        CloudWatch.pollPassAux pollO parseTs blameF account limit_timestamp rest lgs
          (out ++ CloudWatch.handle_query_results parseTs blameF account lg results)) := by
  constructor
  · intro hlen
    simp [CloudWatch.pollPassAux, get_query_results, hc, hlen]
  · intro hlen
    simp [CloudWatch.pollPassAux, get_query_results, hc, Nat.not_le.mpr hlen]

/-- C3 witness: a completed query exactly at the 10000-row cap re-submits
with the advanced window; a fixed timestamp parser and empty blame are
used. -/
theorem C3_sliding_window_witness :
    ((fun _ : String => PollResp.status "Complete" (List.replicate 10000 (Row.mk "a:g" "t" "m")))
        "q1" = PollResp.status "Complete" (List.replicate 10000 (Row.mk "a:g" "t" "m"))) ∧
    QUERY_LIMIT ≤ (List.replicate 10000 (Row.mk "a:g" "t" "m")).length ∧
    CloudWatch.pollPassAux
        (fun _ => PollResp.status "Complete" (List.replicate 10000 (Row.mk "a:g" "t" "m")))
        (fun _ => 0) (fun _ _ => none) "acct" 99 [("g", "q1")] [] [] =
      CloudWatch.pollPassAux
        (fun _ => PollResp.status "Complete" (List.replicate 10000 (Row.mk "a:g" "t" "m")))
        (fun _ => 0) (fun _ _ => none) "acct" 99 []
        (dinsert "g" ((0 : Int), (99 : Int)) [])
        ([] ++ CloudWatch.handle_query_results (fun _ => 0) (fun _ _ => none) "acct" "g"
          (List.replicate 10000 (Row.mk "a:g" "t" "m"))) :=
  ⟨rfl, by rw [List.length_replicate]; decide,
   (C3_sliding_window _ _ _ _ _ _ _ _ _ _ _ rfl).1 (by rw [List.length_replicate]; decide)⟩

/-- C4: the per-account polling loop returns normally only in a state where
both the pending set and the in-flight set are empty (it never breaks while
either is non-empty), and whenever a cycle ends with both sets empty the
loop does return normally with that state. -/
theorem C4_loop_termination (subO : Nat → String → Int × Int → SubmitResp)
    (pollO : Nat → String → PollResp Row) (parseTs : String → Int)
    (blameF : List (String × Val) → String → Option String) (account : String)
    (limit_timestamp : Int) :
    (∀ (fuel i : Nat) (st st' : CloudWatch.QState),
       CloudWatch.query_logs_loop subO pollO parseTs blameF account limit_timestamp
           fuel i st = .ok (some st') →
       st'.log_groups = [] ∧ st'.queries = []) ∧
    (∀ (fuel i : Nat) (st st' : CloudWatch.QState),
       CloudWatch.query_cycle (subO i) (pollO i) parseTs blameF account limit_timestamp st =
         .ok st' →
       st'.log_groups = [] → st'.queries = [] →
       CloudWatch.query_logs_loop subO pollO parseTs blameF account limit_timestamp
         (fuel + 1) i st = .ok (some st')) := by
  constructor
  · intro fuel
    induction fuel with
    | zero => intro i st st' h; simp [CloudWatch.query_logs_loop] at h
    | succ n ih =>
      intro i st st' h
      cases hcyc : CloudWatch.query_cycle (subO i) (pollO i) parseTs blameF account
          limit_timestamp st with
      | error e => simp [CloudWatch.query_logs_loop, hcyc] at h
      | ok st2 =>
        simp only [CloudWatch.query_logs_loop, hcyc] at h
        by_cases hcond : st2.log_groups = [] ∧ st2.queries = []
        · rw [if_pos hcond] at h
          injection h with h
          injection h with h
          subst h
          exact hcond
        · rw [if_neg hcond] at h
          exact ih (i + 1) st2 st' h
  · intro fuel i st st' hcyc h1 h2
    simp [CloudWatch.query_logs_loop, hcyc, h1, h2]

/-- C4 witness: a single-group state whose only log group is dropped as
`NOT_FOUND` during the first cycle, so the loop terminates after one cycle
in the doubly-empty state. -/
theorem C4_loop_termination_witness :
    CloudWatch.query_cycle
        ((fun _ _ _ => SubmitResp.clientError "ResourceNotFoundException") 0)
        ((fun _ _ => PollResp.clientError "ThrottlingException") 0)
        (fun _ => 0) (fun _ _ => none) "acct" 9
        ⟨[("g", ((0 : Int), (9 : Int)))], [], []⟩ = .ok ⟨[], [], []⟩ ∧
    CloudWatch.QState.log_groups ⟨[], [], []⟩ = [] ∧
    CloudWatch.QState.queries ⟨[], [], []⟩ = [] ∧
    CloudWatch.query_logs_loop (fun _ _ _ => SubmitResp.clientError "ResourceNotFoundException")
        (fun _ _ => PollResp.clientError "ThrottlingException")
        (fun _ => 0) (fun _ _ => none) "acct" 9 (0 + 1) 0
        ⟨[("g", ((0 : Int), (9 : Int)))], [], []⟩ = .ok (some ⟨[], [], []⟩) :=
  ⟨rfl, rfl, rfl,
   (C4_loop_termination _ _ _ _ _ _).2 0 0 ⟨[("g", ((0 : Int), (9 : Int)))], [], []⟩
     ⟨[], [], []⟩ rfl rfl rfl⟩

/-- C6: in the submission loop, a concurrent-query-limit error stops
submission for the cycle leaving the affected log group (and everything
behind it) pending and untouched; a resource-not-found error removes the
log group from the pending set and it never reaches the in-flight set
(never retried); any other client error propagates out of the submission
loop and aborts the whole per-account loop with that error. -/
theorem C6_submission_error_classification (subO : String → Int × Int → SubmitResp)
    (lg : String) (w : Int × Int) (rest : List (String × (Int × Int)))
    (qs : List (String × String)) :
    (subO lg w = .clientError "LimitExceededException" →
       CloudWatch.submitLoop subO ((lg, w) :: rest) qs = .ok ((lg, w) :: rest, qs)) ∧
    (subO lg w = .clientError "ResourceNotFoundException" →
       CloudWatch.submitLoop subO ((lg, w) :: rest) qs = CloudWatch.submitLoop subO rest qs ∧
       ∀ (lgs' : List (String × (Int × Int))) (qs' : List (String × String)),
         CloudWatch.submitLoop subO rest qs = .ok (lgs', qs') →
         lg ∉ keys rest → lg ∉ keys qs → lg ∉ keys lgs' ∧ lg ∉ keys qs') ∧
    (∀ code, code ≠ "LimitExceededException" → code ≠ "ResourceNotFoundException" →
       subO lg w = .clientError code →
       CloudWatch.submitLoop subO ((lg, w) :: rest) qs = .error (.clientError code)) ∧
    (∀ (subON : Nat → String → Int × Int → SubmitResp)
       (pollON : Nat → String → PollResp Row) (parseTs : String → Int)
       (blameF : List (String × Val) → String → Option String) (account : String)
       (limit_timestamp : Int) (fuel i : Nat) (st : CloudWatch.QState) (e : CWErr),
       CloudWatch.submitLoop (subON i) st.log_groups st.queries = .error e →
       CloudWatch.query_logs_loop subON pollON parseTs blameF account limit_timestamp
         (fuel + 1) i st = .error e) := by
  refine ⟨?_, ?_, ?_, ?_⟩
  · intro h
    simp [CloudWatch.submitLoop, start_error_query, h, QueryStatus.LIMIT_REACHED]
  · intro h
    constructor
    · simp [CloudWatch.submitLoop, start_error_query, h, QueryStatus.LIMIT_REACHED,
        QueryStatus.NOT_FOUND]
    · intro lgs' qs' hrun hnr hnq
      obtain ⟨ha, hb⟩ := submitLoop_keys subO rest qs lgs' qs' hrun
      exact ⟨fun hx => hnr (ha lg hx), fun hx => (hb lg hx).elim hnq hnr⟩
  · intro code h1 h2 h
    simp [CloudWatch.submitLoop, start_error_query, h, h1, h2]
  · intro subON pollON parseTs blameF account limit_timestamp fuel i st e h
    simp [CloudWatch.query_logs_loop, CloudWatch.query_cycle, h]

/-- C6 witness: the three error classifications and the fatal propagation,
applied at a one-group pending set. -/
theorem C6_submission_error_classification_witness :
    ((fun (_ : String) (_ : Int × Int) => SubmitResp.clientError "LimitExceededException")
        "g" ((0 : Int), (9 : Int)) = SubmitResp.clientError "LimitExceededException") ∧
    CloudWatch.submitLoop (fun _ _ => SubmitResp.clientError "LimitExceededException")
        [("g", ((0 : Int), (9 : Int)))] [] = .ok ([("g", ((0 : Int), (9 : Int)))], []) ∧
    CloudWatch.submitLoop (fun _ _ => SubmitResp.clientError "ResourceNotFoundException")
        [("g", ((0 : Int), (9 : Int)))] [] =
      CloudWatch.submitLoop (fun _ _ => SubmitResp.clientError "ResourceNotFoundException")
        [] [] ∧
    CloudWatch.submitLoop (fun _ _ => SubmitResp.clientError "Boom")
        [("g", ((0 : Int), (9 : Int)))] [] = .error (.clientError "Boom") ∧
    CloudWatch.query_logs_loop (fun _ _ _ => SubmitResp.clientError "Boom")
        (fun _ _ => PollResp.clientError "ThrottlingException") (fun _ => 0)
        (fun _ _ => none) "acct" 9 (0 + 1) 0 ⟨[("g", ((0 : Int), (9 : Int)))], [], []⟩ =
      .error (.clientError "Boom") :=
  ⟨rfl,
   (C6_submission_error_classification _ "g" (0, 9) [] []).1 rfl,
   ((C6_submission_error_classification _ "g" (0, 9) [] []).2.1 rfl).1,
   (C6_submission_error_classification _ "g" (0, 9) [] []).2.2.1 "Boom" (by decide)
     (by decide) rfl,
   (C6_submission_error_classification (fun _ _ => SubmitResp.clientError "Boom") "g" (0, 9)
       [] []).2.2.2 (fun _ _ _ => SubmitResp.clientError "Boom")
     (fun _ _ => PollResp.clientError "ThrottlingException") (fun _ => 0) (fun _ _ => none)
     "acct" 9 0 0 ⟨[("g", ((0 : Int), (9 : Int)))], [], []⟩ (.clientError "Boom") rfl⟩

theorem dropWhile_head_prop {α : Type} (p : α → Bool) :
    ∀ (l : List α) (d : α) (ds : List α), l.dropWhile p = d :: ds → p d = false ∧ d ∈ l := by
  intro l
  induction l with
  | nil => intro d ds h; cases h
  | cons a l ih =>
    intro d ds h
    by_cases hp : p a
    · rw [List.dropWhile_cons_of_pos hp] at h
      obtain ⟨h1, h2⟩ := ih d ds h
      exact ⟨h1, List.mem_cons_of_mem _ h2⟩
    · rw [List.dropWhile_cons_of_neg hp] at h
      injection h with h1 h2
      subst h1
      exact ⟨by simpa using hp, List.mem_cons_self _ _⟩

theorem sprintSearch_isSome (s : String) :
    (sprintSearch s).isSome ↔ s.toList.any Char.isDigit := by
  simp only [sprintSearch]
  cases hd : s.toList.dropWhile (fun c => !c.isDigit) with
  | nil =>
    rw [List.dropWhile_eq_nil_iff] at hd
    simp only [Option.isSome_none, Bool.false_eq_true, false_iff]
    intro hany
    obtain ⟨c, hc, hdig⟩ := List.any_eq_true.mp hany
    have := hd c hc
    simp [hdig] at this
  | cons d ds =>
    obtain ⟨hpd, hmem⟩ := dropWhile_head_prop _ s.toList d ds hd
    simp only [Option.isSome_some, true_iff]
    exact List.any_eq_true.mpr ⟨d, hmem, by simpa using hpd⟩

theorem mapSprints_isSome : ∀ l : List String,
    (mapSprints l).isSome ↔ ∀ s ∈ l, (sprintSearch s).isSome := by
  intro l
  induction l with
  | nil => simp [mapSprints]
  | cons s rest ih =>
    simp only [mapSprints, Option.bind_eq_bind]
    cases hs : sprintSearch s with
    | none => simp [hs, List.forall_mem_cons]
    | some v =>
      cases hr : mapSprints rest with
      | none => simp [hs, hr, List.forall_mem_cons, ← ih]
      | some vs => simp [hs, hr, List.forall_mem_cons, ← ih]

theorem mapSprints_eq_some : ∀ (l : List String) (vs : List Nat),
    mapSprints l = some vs → vs = l.filterMap sprintSearch := by
  intro l
  induction l with
  | nil =>
    intro vs h
    injection h with h
    subst h
    rfl
  | cons s rest ih =>
    intro vs h
    cases hs : sprintSearch s with
    | none => simp [mapSprints, hs] at h
    | some v =>
      cases hr : mapSprints rest with
      | none => simp [mapSprints, hs, hr] at h
      | some vs' =>
        simp only [mapSprints, hs, hr, Option.bind_eq_bind, Option.some_bind] at h
        injection h with h
        subst h
        simp [List.filterMap_cons, hs, ih vs' hr]

theorem jiraGo_aborts : ∀ (t : List (List String)) (row : List String),
    row ∈ t → Story.transform_input row = none → (jiraGo t).2 = false := by
  intro t
  induction t with
  | nil => intro row h; cases h
  | cons r t ih =>
    intro row hmem hrow
    rcases List.mem_cons.mp hmem with rfl | hmem'
    · simp [jiraGo, hrow]
    · cases hr : Story.transform_input r with
      | none => simp [jiraGo, hr]
      | some st =>
        have hres := ih row hmem' hrow
        rcases hgo : jiraGo t with ⟨ms, ok⟩
        rw [hgo] at hres
        simp [jiraGo, hr, hgo]
        exact hres

theorem jiraGo_prefix : ∀ (pre : List (List String)) (row : List String)
    (rest : List (List String)),
    (∀ r ∈ pre, (Story.transform_input r).isSome) →
    Story.transform_input row = none →
    jiraGo (pre ++ row :: rest) =
      (pre.filterMap fun r => (Story.transform_input r).map fun st => (storyLabel, st),
       false) := by
  intro pre
  induction pre with
  | nil =>
    intro row rest _ hrow
    simp [jiraGo, hrow]
  | cons r pre ih =>
    intro row rest hpre hrow
    have hr := hpre r (by simp)
    obtain ⟨st, hst⟩ := Option.isSome_iff_exists.mp hr
    have hrec := ih row rest (fun x hx => hpre x (by simp [hx])) hrow
    rw [List.cons_append]
    simp [jiraGo, hst, hrec, List.filterMap_cons]

/-- C10: `Story.transform_input` succeeds exactly when column 0 exists and
parses as an integer and every non-empty later column contains at least one
decimal digit, in which case the id is `int(data[0])` and the sprints are
the first embedded numbers of the non-empty remaining columns; and a
non-header row with a non-empty digit-free sprint column makes the Jira
extractor abort — the loop ends unfinished at that row, which is neither
skipped nor queued, after queuing only the rows before it. -/
theorem C10_story_row_parsing :
    (∀ data : List String,
       (Story.transform_input data).isSome ↔
         ((data.head?.bind parsePyInt).isSome ∧
          ∀ c ∈ data.drop 1, c ≠ "" → c.toList.any Char.isDigit)) ∧
    (∀ (data : List String) (id : Int) (sprints : List Nat),
       Story.transform_input data = some (id, sprints) →
       data.head?.bind parsePyInt = some id ∧
       sprints = ((data.drop 1).filter fun s => s ≠ "").filterMap sprintSearch) ∧
    (∀ (rows : List (List String)) (row : List String),
       row ∈ rows.drop 1 → Story.transform_input row = none →
       (jiraExtract rows).2 = false) ∧
    (∀ (hdr : List String) (pre : List (List String)) (row : List String)
       (rest : List (List String)),
       (∀ r ∈ pre, (Story.transform_input r).isSome) →
       Story.transform_input row = none →
       jiraExtract (hdr :: pre ++ row :: rest) =
         (pre.filterMap fun r => (Story.transform_input r).map fun st => (storyLabel, st),
          false)) := by
  refine ⟨?_, ?_, ?_, ?_⟩
  · intro data
    cases data with
    | nil => simp [Story.transform_input]
    | cons c0 tail =>
      simp only [Story.transform_input, List.head?_cons, List.drop_succ_cons, List.drop_zero,
        Option.bind_eq_bind, Option.some_bind]
      cases hp : parsePyInt c0 with
      | none => simp [hp]
      | some id =>
        cases hm : mapSprints (tail.filter fun s => s ≠ "") with
        | none =>
          simp only [hp, hm, Option.some_bind, Option.none_bind, Option.isSome_none,
            Option.isSome_some, true_and, Bool.false_eq_true, false_iff]
          intro hall
          have : (mapSprints (tail.filter fun s => s ≠ "")).isSome := by
            rw [mapSprints_isSome]
            intro s hs
            obtain ⟨hmem, hne⟩ := List.mem_filter.mp hs
            exact (sprintSearch_isSome s).mpr (hall s hmem (by simpa using hne))
          rw [hm] at this
          cases this
        | some vs =>
          simp only [hp, hm, Option.some_bind, Option.pure_def, Option.isSome_some, true_and,
            true_iff]
          intro c hc hne
          have hall := mapSprints_isSome (tail.filter fun s => s ≠ "") |>.mp
            (by rw [hm]; rfl)
          exact (sprintSearch_isSome c).mp
            (hall c (List.mem_filter.mpr ⟨hc, by simp [hne]⟩))
  · intro data id sprints h
    cases data with
    | nil => cases h
    | cons c0 tail =>
      simp only [Story.transform_input, List.head?_cons, List.drop_succ_cons, List.drop_zero,
        Option.bind_eq_bind, Option.some_bind] at h
      cases hp : parsePyInt c0 with
      | none => rw [hp] at h; cases h
      | some id' =>
        rw [hp] at h
        cases hm : mapSprints (tail.filter fun s => s ≠ "") with
        | none => rw [hm] at h; cases h
        | some vs =>
          rw [hm] at h
          simp only [Option.some_bind, Option.pure_def, Option.some_inj, Prod.mk.injEq] at h
          obtain ⟨h1, h2⟩ := h
          subst h1
          subst h2
          exact ⟨by simp [hp], mapSprints_eq_some _ vs hm⟩
  · intro rows row hmem hrow
    cases rows with
    | nil => cases hmem
    | cons hdr t =>
      simp only [List.drop_succ_cons, List.drop_zero] at hmem
      simpa [jiraExtract] using jiraGo_aborts t row hmem hrow
  · intro hdr pre row rest hpre hrow
    simpa [jiraExtract] using jiraGo_prefix pre row rest hpre hrow

/-- C10 witness: a valid first data row, then a row whose sprint column
`"nodigits"` has no digit: the extractor queues only the first row and
aborts. -/
theorem C10_story_row_parsing_witness :
    (∀ r ∈ [["1", "Sprint 1"]], (Story.transform_input r).isSome) ∧
    Story.transform_input ["2", "nodigits"] = none ∧
    jiraExtract (["id", "sprint"] :: [["1", "Sprint 1"]] ++ ["2", "nodigits"] :: []) =
      ([["1", "Sprint 1"]].filterMap fun r =>
        (Story.transform_input r).map fun st => (storyLabel, st), false) :=
  ⟨by intro r hr; rcases List.mem_singleton.mp hr with rfl; decide,
   by decide,
   C10_story_row_parsing.2.2.2 ["id", "sprint"] [["1", "Sprint 1"]] ["2", "nodigits"] []
     (by intro r hr; rcases List.mem_singleton.mp hr with rfl; decide) (by decide)⟩

theorem bytesToHexChars_length : ∀ bs : List Nat,
    (bytesToHexChars bs).length = 2 * bs.length := by
  intro bs
  induction bs with
  | nil => rfl
  | cons b rest ih =>
    simp only [bytesToHexChars, List.length_cons, ih]
    omega

set_option maxRecDepth 40000 in
/-- C8 counterexample: `User.hash_id` is not injective — the distinct
usernames `"u45949"` and `"u59118"` collide on the 4-byte digest. -/
theorem C8_counterexample :
    User.hash_id "u45949" = User.hash_id "u59118" ∧ "u45949" ≠ "u59118" :=
  ⟨by decide, by decide⟩

/-- C8 (amended): `User.hash_id` is deterministic — it is a pure function of
the input string, so equal inputs always yield equal hashes, across call
sites and runs — and every hash is an 8-character hex digest; but distinct
inputs are *not* guaranteed distinct hashes (the 4-byte digest admits
collisions, see the counterexample), so collision-freedom can only hold for
specific identity sets. -/
theorem C8_hash_id_deterministic :
    (∀ a b : String, a = b → User.hash_id a = User.hash_id b) ∧
    (∀ s : String, (User.hash_id s).length = 8) := by
  constructor
  · intro a b h
    rw [h]
  · intro s
    simp [User.hash_id, shake128Hexdigest, String.length, bytesToHexChars_length,
      squeezeBytes, List.length_ofFn]

/-- C8 witness: determinism applied at a concrete identity. -/
theorem C8_hash_id_deterministic_witness :
    ("alice" : String) = "alice" ∧ User.hash_id "alice" = User.hash_id "alice" :=
  ⟨rfl, C8_hash_id_deterministic.1 "alice" "alice" rfl⟩

end Pipeline
